import Mathlib

/-
Verification of the scan pipeline of the uxvision repository
(src/app/api/scan/route.ts) against its natural-language specification.

The TypeScript pipeline is shallowly embedded below.  External effects
(the headless browser, the reasoning service, the JSON.parse platform
function and the sharp image codec) are modelled as explicit oracle
parameters; everything the route itself computes is translated directly.
-/

/-! ## Data model (interfaces UXIssue, UXRecommendation, UXAnalysisResult) -/

/-- Pixel rectangle, as used for element bounds in route.ts. -/
structure Bounds where
  x : Int
  y : Int
  width : Int
  height : Int
deriving DecidableEq, Repr

/-- Viewport dimensions (route.ts sets 1920 times 1080). -/
structure Viewport where
  width : Int
  height : Int
deriving DecidableEq, Repr

/-- interface UXIssue of route.ts.  Untrusted string fields may be empty,
which models absent or falsy JSON fields. -/
structure UXIssue where
  category : String
  severity : String
  title : String
  description : String
  element : Option String
  impact : String
  bounds : Option Bounds
  screenshot : Option String
deriving DecidableEq, Repr

/-- interface UXRecommendation of route.ts. -/
structure UXRecommendation where
  priority : String
  title : String
  description : String
  implementation : String
  expectedImpact : String
  effort : String
  screenshot : Option String
deriving DecidableEq, Repr

/-- interface UXAnalysisResult of route.ts (the return type of
performUXAnalysis). -/
structure UXAnalysisResult where
  score : Int
  issues : List UXIssue
  recommendations : List UXRecommendation
  summary : String
deriving DecidableEq, Repr

/-- The object produced by JSON.parse on the reasoning-service response:
every field may be absent. -/
structure RawAnalysis where
  score : Option Int
  issues : Option (List UXIssue)
  recommendations : Option (List UXRecommendation)
  summary : Option String
deriving DecidableEq, Repr

/-- The named landmark rectangles extracted by page.evaluate
(pageData.elementBounds); every landmark may be absent, which also covers
the fallback pageData that has no elementBounds field at all. -/
structure ElementBounds where
  navigation : Option Bounds
  header : Option Bounds
  footer : Option Bounds
  mainContent : Option Bounds
  primaryCTA : Option Bounds
  forms : Option Bounds
deriving DecidableEq, Repr

/-- The part of pageData that the cropping loops read. -/
structure PageData where
  viewport : Viewport
  elementBounds : ElementBounds
deriving DecidableEq, Repr

/-- The captured page state used by the analysis step: the optional
full-page screenshot (base64 string, null when capture failed) and the
extracted page data. -/
structure PageSnapshot where
  screenshot : Option String
  pageData : PageData
deriving DecidableEq, Repr

/-! ## JavaScript truthiness helpers -/

/-- JS expression `s || null` for a nullable string: the empty string and
null are falsy and collapse to null. -/
def jsStrTruthy : Option String → Option String
  | none => none
  | some s => if s = "" then none else some s

/-- JS expression `n || null` for a nullable number: 0 and null are falsy
and collapse to null (used for issue.bounds fields). -/
def jsNumOrNull : Option Int → Option Int
  | none => none
  | some n => if n = 0 then none else some n

/-- JS String.prototype.toLowerCase, character by character. -/
def jsToLower (s : String) : String :=
  String.mk (s.data.map Char.toLower)

/-- JS String.prototype.trim: strip whitespace from both ends. -/
def jsTrim (s : String) : String :=
  String.mk (((s.data.dropWhile Char.isWhitespace).reverse.dropWhile Char.isWhitespace).reverse)

/-- The combinator `.toLowerCase().trim()` applied to every enum field by
the validator in route.ts. -/
def lowerTrim (s : String) : String := jsTrim (jsToLower s)

/-! ## JSON span extraction (line 504: analysisContent.match of the
regular expression matching a brace followed by anything followed by a
brace, greedy) -/

/-- Drop characters until the first occurrence of t; the result starts
with t, or is empty when t does not occur. -/
def dropUntilChar (t : Char) : List Char → List Char
  | [] => []
  | c :: cs => if c = t then c :: cs else dropUntilChar t cs

/-- Semantics of the greedy regex match in route.ts line 504: the span
from the first opening brace through the last closing brace of the text,
or none when no closing brace follows an opening brace. -/
def extractSpan (s : String) : Option String :=
  let tail := dropUntilChar '{' s.data
  if tail.isEmpty then none
  else
    let body := (dropUntilChar '}' tail.reverse).reverse
    if body.isEmpty then none else some (String.mk body)

/-- Modelled from the spec: body of the first-balanced-span search.
Consumes characters of a list that starts at an opening brace, tracking
nesting depth, and returns the span up to the matching close. -/
def balSpan : List Char → Nat → List Char → Option (List Char)
  | [], _, _ => none
  | c :: cs, d, acc =>
    if c = '{' then balSpan cs (d + 1) (c :: acc)
    else if c = '}' then
      if d = 1 then some (c :: acc).reverse
      else if d = 0 then none
      else balSpan cs (d - 1) (c :: acc)
    else balSpan cs d (c :: acc)

/-- Modelled from the spec: tries each opening brace in order and returns
the first span that balances. -/
def firstBalancedAux : List Char → Option (List Char)
  | [] => none
  | c :: cs =>
    if c = '{' then
      match balSpan (c :: cs) 0 [] with
      | some sp => some sp
      | none => firstBalancedAux cs
    else firstBalancedAux cs

/-- Modelled from the spec (section 4.2): extraction locates the first
balanced brace span in the response text.  This is the specification-side
definition, to be compared with extractSpan, the code-side one. -/
def extractFirstBalanced (s : String) : Option String :=
  (firstBalancedAux s.data).map String.mk

example : extractSpan "not json at all" = none := by decide
example : extractSpan "{a} x {b}" = some "{a} x {b}" := by decide
example : extractFirstBalanced "{a} x {b}" = some "{a}" := by decide
example : extractSpan "x {a} y" = some "{a}" := by decide
example : lowerTrim "Layout " = "layout" := by decide

/-! ## Result Validator (route.ts lines 109 to 178) -/

def validCategories : List String :=
  ["layout", "accessibility", "conversion", "mobile", "performance"]

def validSeverities : List String := ["high", "medium", "low"]

def validPriorities : List String := ["high", "medium", "low"]

def validEfforts : List String := ["low", "medium", "high"]

/-- The ternary used for every enum field: keep the lower-cased trimmed
value when it belongs to the closed set, otherwise the fixed default. -/
def normEnum (valid : List String) (dflt : String) (v : String) : String :=
  if lowerTrim v ∈ valid then lowerTrim v else dflt

/-- The storage-ready issue record built at route.ts lines 115 to 132
(scan id omitted: it is supplied by the surrounding insert). -/
@[ext]
structure ValidatedIssue where
  category : String
  severity : String
  title : String
  description : String
  element : Option String
  impact : String
  screenshot : Option String
  bounds_x : Option Int
  bounds_y : Option Int
  bounds_width : Option Int
  bounds_height : Option Int
deriving DecidableEq, Repr

/-- The storage-ready recommendation record built at route.ts lines 153
to 166. -/
@[ext]
structure ValidatedRec where
  priority : String
  title : String
  description : String
  implementation : String
  expected_impact : String
  effort : String
  screenshot : Option String
deriving DecidableEq, Repr

/-- Map step of the issue validator. -/
def validateIssue (i : UXIssue) : ValidatedIssue where
  category := normEnum validCategories "layout" i.category
  severity := normEnum validSeverities "medium" i.severity
  title := if i.title = "" then "UX Issue" else i.title
  description := if i.description = "" then "No description provided" else i.description
  element := jsStrTruthy i.element
  impact := if i.impact = "" then "Impact on user experience" else i.impact
  screenshot := jsStrTruthy i.screenshot
  bounds_x := jsNumOrNull (i.bounds.map (fun b => b.x))
  bounds_y := jsNumOrNull (i.bounds.map (fun b => b.y))
  bounds_width := jsNumOrNull (i.bounds.map (fun b => b.width))
  bounds_height := jsNumOrNull (i.bounds.map (fun b => b.height))

/-- Map then filter, as in route.ts lines 114 to 133. -/
def validateIssues (l : List UXIssue) : List ValidatedIssue :=
  (l.map validateIssue).filter (fun v => v.title != "" && v.description != "")

/-- Map step of the recommendation validator. -/
def validateRec (r : UXRecommendation) : ValidatedRec where
  priority := normEnum validPriorities "medium" r.priority
  title := if r.title = "" then "UX Recommendation" else r.title
  description := if r.description = "" then "No description provided" else r.description
  implementation :=
    if r.implementation = "" then "Implementation details not provided" else r.implementation
  expected_impact :=
    if r.expectedImpact = "" then "Expected improvement in user experience" else r.expectedImpact
  effort := normEnum validEfforts "medium" r.effort
  screenshot := jsStrTruthy r.screenshot

/-- Map then filter, as in route.ts lines 152 to 167. -/
def validateRecs (l : List UXRecommendation) : List ValidatedRec :=
  (l.map validateRec).filter
    (fun v => v.title != "" && v.description != "" && v.implementation != "")

/-- Reading a persisted issue record back in the shape the validator
consumes.  A bounds field that the record stores as null is read back as
the coordinate 0, which the validator identifies with null (both are
falsy under the `value or-else null` defaulting); a record with all four
bounds fields null has no rectangle at all. -/
def ValidatedIssue.toUX (v : ValidatedIssue) : UXIssue where
  category := v.category
  severity := v.severity
  title := v.title
  description := v.description
  element := v.element
  impact := v.impact
  screenshot := v.screenshot
  bounds :=
    if v.bounds_x = none ∧ v.bounds_y = none ∧ v.bounds_width = none ∧ v.bounds_height = none
    then none
    else some ⟨v.bounds_x.getD 0, v.bounds_y.getD 0, v.bounds_width.getD 0, v.bounds_height.getD 0⟩

/-- Reading a persisted recommendation record back in the shape the
validator consumes. -/
def ValidatedRec.toUX (v : ValidatedRec) : UXRecommendation where
  priority := v.priority
  title := v.title
  description := v.description
  implementation := v.implementation
  expectedImpact := v.expected_impact
  effort := v.effort
  screenshot := v.screenshot

/-! ## Region Cropper (captureElementScreenshot, route.ts lines 667 to 707) -/

/-- The rectangle handed to sharp extract: fixed 20 pixel padding, origin
clamped to be non-negative, width clamped against the viewport, height
clamped to at most 400. -/
structure CropRect where
  left : Int
  top : Int
  width : Int
  height : Int
deriving DecidableEq, Repr

def cropRect (elementBounds : Bounds) (viewport : Viewport) : CropRect :=
  let padding : Int := 20
  let cropX := max 0 (elementBounds.x - padding)
  let cropY := max 0 (elementBounds.y - padding)
  let cropWidth := min (viewport.width - cropX) (elementBounds.width + padding * 2)
  let cropHeight := min (elementBounds.height + padding * 2) 400
  ⟨cropX, cropY, cropWidth, cropHeight⟩

/-- captureElementScreenshot: the decode, extract, encode sequence is the
codec oracle; any codec failure is caught and becomes none. -/
def captureElementScreenshotM (codec : CropRect → Option String)
    (elementBounds : Bounds) (viewport : Viewport) : Option String :=
  codec (cropRect elementBounds viewport)

/-- The guard both call sites place around captureElementScreenshot
(route.ts lines 572 and 606): only rectangles with positive width and
height are cropped at all. -/
def guardedCrop (codec : CropRect → Option String)
    (elementBounds : Bounds) (viewport : Viewport) : Option String :=
  if elementBounds.width > 0 ∧ elementBounds.height > 0 then
    captureElementScreenshotM codec elementBounds viewport
  else none

example : cropRect ⟨-10, 0, 50, 500⟩ ⟨1920, 1080⟩ = ⟨0, 0, 90, 400⟩ := by decide

/-! ## Per-finding rectangle lookup and the cropping loops
(route.ts lines 545 to 622) -/

/-- The switch on issue.category at route.ts lines 553 to 570. -/
def issueBounds (pd : PageData) (category : String) : Option Bounds :=
  if category = "layout" then pd.elementBounds.navigation <|> pd.elementBounds.header
  else if category = "conversion" then pd.elementBounds.primaryCTA <|> pd.elementBounds.forms
  else if category = "accessibility" then
    pd.elementBounds.navigation <|> pd.elementBounds.mainContent
  else if category = "mobile" then pd.elementBounds.header <|> pd.elementBounds.navigation
  else if category = "performance" then some ⟨0, 0, pd.viewport.width, 400⟩
  else none

/-- Character-list substring test, for JS String.prototype.includes. -/
def isPrefixChars : List Char → List Char → Bool
  | [], _ => true
  | _ :: _, [] => false
  | a :: as, b :: bs => a = b && isPrefixChars as bs

def isInfixChars (needle : List Char) : List Char → Bool
  | [] => isPrefixChars needle []
  | c :: cs => isPrefixChars needle (c :: cs) || isInfixChars needle cs

/-- JS `s.includes(sub)`. -/
def strContains (s sub : String) : Bool := isInfixChars sub.data s.data

/-- The keyword match on the lower-cased recommendation title at
route.ts lines 596 to 604. -/
def recBounds (pd : PageData) (title : String) : Option Bounds :=
  let t := jsToLower title
  if strContains t "button" || strContains t "cta" then pd.elementBounds.primaryCTA
  else if strContains t "navigation" || strContains t "nav" then pd.elementBounds.navigation
  else if strContains t "form" then pd.elementBounds.forms
  else if strContains t "header" then pd.elementBounds.header
  else none

/-- One iteration of the issue-screenshot loop: look the rectangle up by
category, crop when it has positive dimensions, and attach the screenshot
and the rectangle on success. -/
def processIssue (codec : CropRect → Option String) (pd : PageData) (i : UXIssue) : UXIssue :=
  match issueBounds pd i.category with
  | none => i
  | some b =>
    if b.width > 0 ∧ b.height > 0 then
      match jsStrTruthy (captureElementScreenshotM codec b pd.viewport) with
      | some shot => { i with screenshot := some shot, bounds := some b }
      | none => i
    else i

/-- One iteration of the recommendation-screenshot loop: keyword lookup,
crop, attach the screenshot only. -/
def processRec (codec : CropRect → Option String) (pd : PageData)
    (r : UXRecommendation) : UXRecommendation :=
  match recBounds pd r.title with
  | none => r
  | some b =>
    if b.width > 0 ∧ b.height > 0 then
      match jsStrTruthy (captureElementScreenshotM codec b pd.viewport) with
      | some shot => { r with screenshot := some shot }
      | none => r
    else r

/-- A finding the cropping stage iterated over. -/
inductive FindingRef
  | issueIdx (i : Nat)
  | recIdx (i : Nat)
deriving DecidableEq, Repr

/-- The index sequence 0, 1, ..., k-1 visited by a JS for loop, recorded
as finding references. -/
def loopRefs (k : Nat) (f : Nat → FindingRef) : List FindingRef :=
  match k with
  | 0 => []
  | n + 1 => loopRefs n f ++ [f n]

/-- The inner recommendation loop (route.ts lines 590 to 621): guarded by
the non-emptiness check, processes the first min(length, 3) entries. -/
def enrichRecsOut (codec : CropRect → Option String) (pd : PageData)
    (orecs : Option (List UXRecommendation)) : Option (List UXRecommendation) :=
  match orecs with
  | none => none
  | some recs =>
    if recs ≠ [] then some ((recs.take 3).map (processRec codec pd) ++ recs.drop 3)
    else some recs

/-- The recommendation indices visited by the inner loop. -/
def enrichRecTrail (orecs : Option (List UXRecommendation)) : List FindingRef :=
  match orecs with
  | none => []
  | some recs =>
    if recs ≠ [] then loopRefs (min recs.length 3) FindingRef.recIdx else []

/-- The whole screenshot-enrichment block, route.ts lines 545 to 622.
Runs only when a screenshot exists and the issues list is non-empty; in
that case every issue is processed, and the inner recommendation loop
runs.  The second component records which findings the loops iterated
over. -/
def enrich (codec : CropRect → Option String) (pd : PageData) (hasImage : Bool)
    (raw : RawAnalysis) : RawAnalysis × List FindingRef :=
  if hasImage = true ∧ raw.issues.getD [] ≠ [] then
    ({ raw with
        issues := some ((raw.issues.getD []).map (processIssue codec pd)),
        recommendations := enrichRecsOut codec pd raw.recommendations },
      loopRefs (raw.issues.getD []).length FindingRef.issueIdx
        ++ enrichRecTrail raw.recommendations)
  else (raw, [])

/-! ## Fallback constants and the final field defaulting -/

/-- The fallback analysis substituted when JSON.parse fails
(route.ts lines 518 to 541). -/
def parseFallback : RawAnalysis where
  score := some 70
  issues := some [{
    category := "performance"
    severity := "medium"
    title := "Analysis Timeout"
    description := "The website took too long to load completely, which may indicate performance issues."
    element := some "Page load"
    impact := "Users may experience slow loading times"
    bounds := none
    screenshot := none }]
  recommendations := some [{
    priority := "medium"
    title := "Optimize Page Load Speed"
    description := "Improve website performance to reduce loading times"
    implementation := "Optimize images, minify CSS/JS, use CDN, enable compression"
    expectedImpact := "Faster loading times and better user experience"
    effort := "medium"
    screenshot := none }]
  summary := some "Analysis was partially successful. The website appears to have some performance considerations that should be addressed."

/-- The fallback summary sentence of route.ts line 628. -/
def fallbackSummary : String :=
  "Analysis completed with some limitations due to page loading issues."

/-- The final field defaulting at route.ts lines 624 to 629: each field
of the parsed object defaults on any falsy value (absent, 0 for the
score, the empty string for the summary). -/
def finalize (raw : RawAnalysis) : UXAnalysisResult where
  score := match raw.score with
    | some n => if n = 0 then 70 else n
    | none => 70
  issues := raw.issues.getD []
  recommendations := raw.recommendations.getD []
  summary := match raw.summary with
    | some s => if s = "" then fallbackSummary else s
    | none => fallbackSummary

/-- The fallback result returned by the outer catch of performUXAnalysis
(route.ts lines 635 to 658). -/
def catchFallback : UXAnalysisResult where
  score := 65
  issues := [{
    category := "performance"
    severity := "high"
    title := "Website Loading Issues"
    description := "The website failed to load properly during analysis, indicating potential performance or accessibility problems."
    element := some "Page load"
    impact := "Users may be unable to access the website or experience significant delays"
    bounds := none
    screenshot := none }]
  recommendations := [{
    priority := "high"
    title := "Investigate Loading Issues"
    description := "Debug why the website fails to load reliably"
    implementation := "Check server response times, fix broken resources, optimize critical path"
    expectedImpact := "Improved reliability and accessibility"
    effort := "high"
    screenshot := none }]
  summary := "Website analysis could not be completed due to loading issues. This suggests fundamental performance problems that should be addressed."

/-! ## performUXAnalysis (route.ts lines 215 to 664) -/

def noContentMsg : String := "No analysis content received from OpenAI"

def noJsonMsg : String := "Could not extract JSON from OpenAI response"

/-- The body of the try block of performUXAnalysis.  The capture stage
(browser launch, navigation, screenshot, extraction) is the capture
oracle; the reasoning-service call is the service oracle; JSON.parse on
the extracted span is the parse oracle; sharp is the codec oracle.  Every
throw site inside the try block is an error value here. -/
def analysisBody (capture : Except String PageSnapshot)
    (service : PageSnapshot → Except String String)
    (parse : String → Option RawAnalysis)
    (codec : CropRect → Option String) : Except String UXAnalysisResult :=
  match capture with
  | .error e => .error e
  | .ok snap =>
    match service snap with
    | .error e => .error e
    | .ok content =>
      if content = "" then .error noContentMsg
      else
        match extractSpan content with
        | none => .error noJsonMsg
        | some span =>
          let raw := match parse span with
            | some a => a
            | none => parseFallback
          let enriched := (enrich codec snap.pageData (jsStrTruthy snap.screenshot).isSome raw).1
          .ok (finalize enriched)

/-- performUXAnalysis: the try body wrapped in the catch-all that returns
the populated score-65 fallback, so the function is total. -/
def performUXAnalysisM (capture : Except String PageSnapshot)
    (service : PageSnapshot → Except String String)
    (parse : String → Option RawAnalysis)
    (codec : CropRect → Option String) : UXAnalysisResult :=
  match analysisBody capture service parse codec with
  | .ok r => r
  | .error _ => catchFallback

/-! ## Scan Orchestrator (POST handler, route.ts lines 44 to 213) -/

inductive ScanStatus
  | pending
  | completed
  | failed
deriving DecidableEq, Repr

/-- The fields of a scans-table write. -/
structure ScanUpdate where
  status : ScanStatus
  score : Option Int
  issues_found : Option Nat
  recommendations_count : Option Nat
  summary : Option String
deriving DecidableEq, Repr

/-- One storage operation issued by the POST handler. -/
inductive DbWrite
  | insertScan (u : ScanUpdate)
  | updateScan (u : ScanUpdate)
  | insertIssues (rows : List ValidatedIssue)
  | insertRecs (rows : List ValidatedRec)
deriving DecidableEq, Repr

/-- The initial pending record inserted at route.ts lines 67 to 76. -/
def pendingInsert : ScanUpdate := ⟨.pending, none, none, none, none⟩

/-- The storage writes issued after the Scan record exists, as a function
of the outcome of the combined analyze step (the try block at route.ts
lines 87 to 204). -/
def orchestrate (analyzeStep : Except String UXAnalysisResult) : List DbWrite :=
  let createScan := DbWrite.insertScan pendingInsert
  match analyzeStep with
  | .ok r =>
    let completedUpdate := DbWrite.updateScan
      ⟨.completed, some r.score, some r.issues.length, some r.recommendations.length, some r.summary⟩
    let issueWrites :=
      if r.issues.length > 0 then
        let vi := validateIssues r.issues
        if vi.length > 0 then [DbWrite.insertIssues vi] else []
      else []
    let recWrites :=
      if r.recommendations.length > 0 then
        let vr := validateRecs r.recommendations
        if vr.length > 0 then [DbWrite.insertRecs vr] else []
      else []
    createScan :: completedUpdate :: (issueWrites ++ recWrites)
  | .error _ => [createScan, DbWrite.updateScan ⟨.failed, none, none, none, none⟩]

/-- The POST handler up to and including Scan creation: input validation
(route.ts lines 48 to 53), the authentication check (lines 58 to 64), and
then the orchestration writes.  Error values are the HTTP status codes of
the early responses. -/
def postScan (url userId : String) (authedUser : Option String)
    (analyzeStep : Except String UXAnalysisResult) : Except Nat (List DbWrite) :=
  if url = "" ∨ userId = "" then .error 400
  else
    match authedUser with
    | none => .error 401
    | some uid => if uid ≠ userId then .error 401 else .ok (orchestrate analyzeStep)

/-- The scan-status values carried by a write trace, in order. -/
def statusesOf (ws : List DbWrite) : List ScanStatus :=
  ws.filterMap fun w =>
    match w with
    | .insertScan u => some u.status
    | .updateScan u => some u.status
    | _ => none

/-- Whether a write persists findings. -/
def isFindingWrite : DbWrite → Bool
  | .insertIssues _ => true
  | .insertRecs _ => true
  | _ => false

/-! ## Concrete fixtures used by witnesses and counterexamples -/

/-- A page with no recognised landmarks. -/
def landmarksNone : ElementBounds := ⟨none, none, none, none, none, none⟩

def pd0 : PageData := ⟨⟨1920, 1080⟩, landmarksNone⟩

/-- A snapshot whose screenshot capture failed. -/
def snap0 : PageSnapshot := ⟨none, pd0⟩

/-- A primary call-to-action rectangle with positive dimensions. -/
def ctaBox : Bounds := ⟨100, 200, 300, 80⟩

/-- A page whose only landmark is the primary call to action. -/
def pdCta : PageData := ⟨⟨1920, 1080⟩, ⟨none, none, none, none, some ctaBox, none⟩⟩

/-- A recommendation whose title matches the button keyword rule. -/
def recButtonFix : UXRecommendation :=
  ⟨"high", "Improve button contrast", "desc", "impl", "impact", "low", none⟩

/-- A parsed analysis with an empty issues list but a croppable
recommendation. -/
def rawOnlyRec : RawAnalysis := ⟨some 90, some [], some [recButtonFix], some "ok"⟩

def issueA : UXIssue := ⟨"layout", "high", "tA", "dA", none, "iA", none, none⟩

def issueB : UXIssue := ⟨"mobile", "low", "tB", "dB", none, "iB", none, none⟩

def recA : UXRecommendation := ⟨"high", "rA", "dA", "iA", "eA", "low", none⟩

def recB : UXRecommendation := ⟨"medium", "rB", "dB", "iB", "eB", "medium", none⟩

def recC : UXRecommendation := ⟨"low", "rC", "dC", "iC", "eC", "high", none⟩

def recD : UXRecommendation := ⟨"high", "rD", "dD", "iD", "eD", "low", none⟩

/-- A parsed analysis with two issues and four recommendations. -/
def rawMulti : RawAnalysis :=
  ⟨some 80, some [issueA, issueB], some [recA, recB, recC, recD], some "s"⟩

/-- The scenario issue of the spec: category Layout with mixed case and a
trailing space. -/
def layoutSpacedIssue : UXIssue :=
  ⟨"Layout ", "Critical", "t", "d", none, "imp", none, none⟩

/-- A recommendation with enum values outside the closed sets. -/
def bogusRec : UXRecommendation := ⟨"URGENT", "t", "d", "i", "e", "Huge", none⟩

/-- A parsed analysis whose score is 0 and whose summary is empty. -/
def rawZeroScore : RawAnalysis := ⟨some 0, none, none, some ""⟩

/-- A parsed analysis whose score is 0 while its summary is non-empty. -/
def rawZeroScoreOnly : RawAnalysis := ⟨some 0, none, none, some "looks fine"⟩

/-! ## Helper lemmas -/

theorem processIssue_category (codec : CropRect → Option String) (pd : PageData) (i : UXIssue) :
    (processIssue codec pd i).category = i.category := by
  unfold processIssue
  cases issueBounds pd i.category with
  | none => rfl
  | some b =>
    dsimp only
    split
    · cases jsStrTruthy (captureElementScreenshotM codec b pd.viewport) <;> rfl
    · rfl

theorem processIssue_severity (codec : CropRect → Option String) (pd : PageData) (i : UXIssue) :
    (processIssue codec pd i).severity = i.severity := by
  unfold processIssue
  cases issueBounds pd i.category with
  | none => rfl
  | some b =>
    dsimp only
    split
    · cases jsStrTruthy (captureElementScreenshotM codec b pd.viewport) <;> rfl
    · rfl

theorem processRec_priority (codec : CropRect → Option String) (pd : PageData)
    (r : UXRecommendation) : (processRec codec pd r).priority = r.priority := by
  unfold processRec
  cases recBounds pd r.title with
  | none => rfl
  | some b =>
    dsimp only
    split
    · cases jsStrTruthy (captureElementScreenshotM codec b pd.viewport) <;> rfl
    · rfl

theorem processRec_effort (codec : CropRect → Option String) (pd : PageData)
    (r : UXRecommendation) : (processRec codec pd r).effort = r.effort := by
  unfold processRec
  cases recBounds pd r.title with
  | none => rfl
  | some b =>
    dsimp only
    split
    · cases jsStrTruthy (captureElementScreenshotM codec b pd.viewport) <;> rfl
    · rfl

theorem enrich_score (codec : CropRect → Option String) (pd : PageData) (g : Bool)
    (raw : RawAnalysis) : (enrich codec pd g raw).1.score = raw.score := by
  unfold enrich
  split <;> rfl

theorem enrich_summary (codec : CropRect → Option String) (pd : PageData) (g : Bool)
    (raw : RawAnalysis) : (enrich codec pd g raw).1.summary = raw.summary := by
  unfold enrich
  split <;> rfl

theorem enrich_issues_length (codec : CropRect → Option String) (pd : PageData) (g : Bool)
    (raw : RawAnalysis) :
    ((enrich codec pd g raw).1.issues.getD []).length = (raw.issues.getD []).length := by
  unfold enrich
  split
  · dsimp only
    simp
  · rfl

theorem enrich_issue_mem (codec : CropRect → Option String) (pd : PageData) (g : Bool)
    (raw : RawAnalysis) :
    ∀ i ∈ (enrich codec pd g raw).1.issues.getD [],
      ∃ j ∈ raw.issues.getD [], i.category = j.category ∧ i.severity = j.severity := by
  intro i hi
  unfold enrich at hi
  split at hi
  · dsimp only at hi
    rw [Option.getD_some, List.mem_map] at hi
    obtain ⟨j, hj, rfl⟩ := hi
    exact ⟨j, hj, processIssue_category codec pd j, processIssue_severity codec pd j⟩
  · exact ⟨i, hi, rfl, rfl⟩

theorem enrichRecsOut_length (codec : CropRect → Option String) (pd : PageData)
    (orecs : Option (List UXRecommendation)) :
    ((enrichRecsOut codec pd orecs).getD []).length = (orecs.getD []).length := by
  cases orecs with
  | none => rfl
  | some recs =>
    by_cases h : recs = []
    · simp [enrichRecsOut, h]
    · simp [enrichRecsOut, h]
      omega

theorem enrichRecsOut_mem (codec : CropRect → Option String) (pd : PageData)
    (orecs : Option (List UXRecommendation)) :
    ∀ r ∈ (enrichRecsOut codec pd orecs).getD [],
      ∃ j ∈ orecs.getD [], r.priority = j.priority ∧ r.effort = j.effort := by
  intro r hr
  cases orecs with
  | none => simp [enrichRecsOut] at hr
  | some recs =>
    by_cases h : recs = []
    · simp [enrichRecsOut, h] at hr
    · rw [show enrichRecsOut codec pd (some recs) =
          some ((recs.take 3).map (processRec codec pd) ++ recs.drop 3) from
          by simp [enrichRecsOut, h]] at hr
      rw [Option.getD_some, List.mem_append] at hr
      rcases hr with hr | hr
      · rw [List.mem_map] at hr
        obtain ⟨j, hj, rfl⟩ := hr
        exact ⟨j, List.take_subset 3 recs hj,
          processRec_priority codec pd j, processRec_effort codec pd j⟩
      · exact ⟨r, List.drop_subset 3 recs hr, rfl, rfl⟩

theorem enrich_recs_length (codec : CropRect → Option String) (pd : PageData) (g : Bool)
    (raw : RawAnalysis) :
    ((enrich codec pd g raw).1.recommendations.getD []).length =
      (raw.recommendations.getD []).length := by
  unfold enrich
  split
  · dsimp only
    exact enrichRecsOut_length codec pd raw.recommendations
  · rfl

theorem enrich_rec_mem (codec : CropRect → Option String) (pd : PageData) (g : Bool)
    (raw : RawAnalysis) :
    ∀ r ∈ (enrich codec pd g raw).1.recommendations.getD [],
      ∃ j ∈ raw.recommendations.getD [], r.priority = j.priority ∧ r.effort = j.effort := by
  intro r hr
  unfold enrich at hr
  split at hr
  · dsimp only at hr
    exact enrichRecsOut_mem codec pd raw.recommendations r hr
  · exact ⟨r, hr, rfl, rfl⟩

theorem loopRefs_eq_range (k : Nat) (f : Nat → FindingRef) :
    loopRefs k f = (List.range k).map f := by
  induction k with
  | zero => rfl
  | succ n ih => simp [loopRefs, List.range_succ, ih]

theorem analysisBody_ok (snap : PageSnapshot) (content sp : String)
    (parse : String → Option RawAnalysis) (codec : CropRect → Option String)
    (hne : content ≠ "") (hsp : extractSpan content = some sp) :
    analysisBody (.ok snap) (fun _ => .ok content) parse codec =
      .ok (finalize (enrich codec snap.pageData (jsStrTruthy snap.screenshot).isSome
        (match parse sp with | some a => a | none => parseFallback)).1) := by
  unfold analysisBody
  dsimp only
  rw [if_neg hne, hsp]

theorem statusesOf_cons_insertScan (u : ScanUpdate) (l : List DbWrite) :
    statusesOf (DbWrite.insertScan u :: l) = u.status :: statusesOf l := rfl

theorem statusesOf_cons_updateScan (u : ScanUpdate) (l : List DbWrite) :
    statusesOf (DbWrite.updateScan u :: l) = u.status :: statusesOf l := rfl

theorem statusesOf_append (a b : List DbWrite) :
    statusesOf (a ++ b) = statusesOf a ++ statusesOf b := by
  unfold statusesOf
  exact List.filterMap_append a b _

/-- The success branch of the orchestrator always writes exactly the
status trace pending then completed. -/
theorem statusesOf_orchestrate_ok (r : UXAnalysisResult) :
    statusesOf (orchestrate (Except.ok r)) = [ScanStatus.pending, ScanStatus.completed] := by
  have hiw : statusesOf (if r.issues.length > 0 then
      (if (validateIssues r.issues).length > 0 then
        [DbWrite.insertIssues (validateIssues r.issues)] else [])
    else []) = [] := by
    split
    · split <;> rfl
    · rfl
  have hrw : statusesOf (if r.recommendations.length > 0 then
      (if (validateRecs r.recommendations).length > 0 then
        [DbWrite.insertRecs (validateRecs r.recommendations)] else [])
    else []) = [] := by
    split
    · split <;> rfl
    · rfl
  unfold orchestrate
  dsimp only
  rw [statusesOf_cons_insertScan, statusesOf_cons_updateScan, statusesOf_append, hiw, hrw]
  rfl

/-! ## Claim theorems -/

/-- Claim C3 (confirmed): whenever the capture-or-analyze sequence fails
(a renderer error or any exception raised inside the try body of
performUXAnalysis), the function returns the populated score-65 fallback
result, with exactly one high-severity performance issue and exactly one
high-priority recommendation, instead of propagating an error to the
orchestrator. -/
theorem analyze_upstream_failure_fallback65
    (capture : Except String PageSnapshot) (service : PageSnapshot → Except String String)
    (parse : String → Option RawAnalysis) (codec : CropRect → Option String) (e : String)
    (h : analysisBody capture service parse codec = .error e) :
    performUXAnalysisM capture service parse codec = catchFallback ∧
    catchFallback.score = 65 ∧
    catchFallback.issues.length = 1 ∧
    (∀ i ∈ catchFallback.issues, i.category = "performance" ∧ i.severity = "high") ∧
    catchFallback.recommendations.length = 1 ∧
    (∀ r ∈ catchFallback.recommendations, r.priority = "high") ∧
    catchFallback.summary ≠ "" := by
  refine ⟨?_, by decide, by decide, by decide, by decide, by decide, by decide⟩
  unfold performUXAnalysisM
  rw [h]

/-- Witness for C3 at a concrete renderer failure. -/
theorem analyze_upstream_failure_fallback65_witness :
    performUXAnalysisM (Except.error "nav timeout") (fun _ => Except.ok "irrelevant")
      (fun _ => none) (fun _ => none) = catchFallback :=
  (analyze_upstream_failure_fallback65 (Except.error "nav timeout")
    (fun _ => Except.ok "irrelevant") (fun _ => none) (fun _ => none) "nav timeout" rfl).1

/-- Claim C7 (confirmed): the cropper applies a fixed 20-pixel padding,
clamps the origin to non-negative coordinates, clamps the width to at
most viewport width minus the crop origin, clamps the height to the
minimum of requested height plus 40 and the 400-pixel ceiling; the
scenario rectangle x -10, y 0, width 50, height 500 against a 1920-wide
viewport yields origin x 0 and height 400. -/
theorem crop_rect_clamping :
    (∀ (b : Bounds) (vp : Viewport),
      (cropRect b vp).left = max 0 (b.x - 20) ∧
      (cropRect b vp).top = max 0 (b.y - 20) ∧
      0 ≤ (cropRect b vp).left ∧
      0 ≤ (cropRect b vp).top ∧
      (cropRect b vp).width ≤ vp.width - (cropRect b vp).left ∧
      (cropRect b vp).width ≤ b.width + 40 ∧
      (cropRect b vp).height = min (b.height + 40) 400) ∧
    (cropRect ⟨-10, 0, 50, 500⟩ ⟨1920, 1080⟩).left = 0 ∧
    (cropRect ⟨-10, 0, 50, 500⟩ ⟨1920, 1080⟩).height = 400 := by
  refine ⟨?_, by decide, by decide⟩
  intro b vp
  unfold cropRect
  dsimp only
  refine ⟨rfl, rfl, le_max_left 0 _, le_max_left 0 _, min_le_left _ _, ?_, rfl⟩
  have := min_le_right (vp.width - max 0 (b.x - 20)) (b.width + 20 * 2)
  omega

/-- Claim C8 (confirmed): a crop request whose source rectangle has zero
width or height yields no image (the call-site guard), a codec failure
yields no image instead of an error, and the scan status trace is the
same pending-then-completed trace for every codec, so crop failures never
change the scan status. -/
theorem crop_zero_dims_absent :
    (∀ (codec : CropRect → Option String) (b : Bounds) (vp : Viewport),
      b.width = 0 ∨ b.height = 0 → guardedCrop codec b vp = none) ∧
    (∀ (codec : CropRect → Option String) (b : Bounds) (vp : Viewport),
      codec (cropRect b vp) = none → guardedCrop codec b vp = none) ∧
    (∀ (capture : Except String PageSnapshot)
      (service : PageSnapshot → Except String String)
      (parse : String → Option RawAnalysis) (codec : CropRect → Option String),
      statusesOf (orchestrate (.ok (performUXAnalysisM capture service parse codec))) =
        [ScanStatus.pending, ScanStatus.completed]) := by
  refine ⟨?_, ?_, ?_⟩
  · intro codec b vp h
    rcases h with h | h <;> simp [guardedCrop, h]
  · intro codec b vp h
    unfold guardedCrop captureElementScreenshotM
    split
    · exact h
    · rfl
  · intro capture service parse codec
    exact statusesOf_orchestrate_ok (performUXAnalysisM capture service parse codec)

/-- Witness for C8 at a zero-width rectangle. -/
theorem crop_zero_dims_absent_witness :
    guardedCrop (fun _ => some "img") ⟨5, 5, 0, 10⟩ ⟨1920, 1080⟩ = none :=
  crop_zero_dims_absent.1 (fun _ => some "img") ⟨5, 5, 0, 10⟩ ⟨1920, 1080⟩ (Or.inl rfl)

/-- Claim C1 counterexample: for the response text "not json at all"
there is no brace span at all, so the inner no-JSON throw is caught by
the outer handler and performUXAnalysis returns the score-65 fallback
(one high-severity issue, one high-priority recommendation), not the
score-70 parse-failure fallback the claim states. -/
theorem analyze_not_json_uses_outer_fallback :
    performUXAnalysisM (Except.ok snap0) (fun _ => Except.ok "not json at all")
      (fun _ => none) (fun _ => none) = catchFallback ∧
    catchFallback.score = 65 ∧
    (∀ i ∈ catchFallback.issues, i.severity = "high") ∧
    ¬ ((performUXAnalysisM (Except.ok snap0) (fun _ => Except.ok "not json at all")
      (fun _ => none) (fun _ => none)).score = 70) := by
  refine ⟨by decide, by decide, by decide, by decide⟩

/-- Claim C1 as amended: for every reasoning-service response that does
contain a brace span but whose span is not valid JSON (the parse oracle
rejects it), performUXAnalysis returns the fixed score-70 fallback:
exactly one issue of category performance and severity medium, and
exactly one recommendation of priority medium and effort medium — never
an empty result.  A response with no brace span instead takes the outer
score-65 fallback (see the counterexample). -/
theorem analyze_parse_failure_fallback70 (snap : PageSnapshot) (content sp : String)
    (parse : String → Option RawAnalysis) (codec : CropRect → Option String)
    (hne : content ≠ "") (hsp : extractSpan content = some sp) (hp : parse sp = none) :
    (performUXAnalysisM (.ok snap) (fun _ => .ok content) parse codec).score = 70 ∧
    (performUXAnalysisM (.ok snap) (fun _ => .ok content) parse codec).issues.length = 1 ∧
    (∀ i ∈ (performUXAnalysisM (.ok snap) (fun _ => .ok content) parse codec).issues,
      i.category = "performance" ∧ i.severity = "medium") ∧
    (performUXAnalysisM (.ok snap) (fun _ => .ok content) parse codec).recommendations.length = 1 ∧
    (∀ r ∈ (performUXAnalysisM (.ok snap) (fun _ => .ok content) parse codec).recommendations,
      r.priority = "medium" ∧ r.effort = "medium") := by
  have hbody := analysisBody_ok snap content sp parse codec hne hsp
  rw [hp] at hbody
  dsimp only at hbody
  have hres : performUXAnalysisM (.ok snap) (fun _ => .ok content) parse codec =
      finalize (enrich codec snap.pageData (jsStrTruthy snap.screenshot).isSome parseFallback).1 := by
    unfold performUXAnalysisM
    rw [hbody]
  rw [hres]
  refine ⟨?_, ?_, ?_, ?_, ?_⟩
  · have hs : (enrich codec snap.pageData (jsStrTruthy snap.screenshot).isSome
        parseFallback).1.score = some 70 := by
      rw [enrich_score]
      rfl
    simp [finalize, hs]
  · have hl : ((enrich codec snap.pageData (jsStrTruthy snap.screenshot).isSome
        parseFallback).1.issues.getD []).length = 1 := by
      rw [enrich_issues_length]
      rfl
    exact hl
  · intro i hi
    have hi' : i ∈ (enrich codec snap.pageData (jsStrTruthy snap.screenshot).isSome
        parseFallback).1.issues.getD [] := hi
    obtain ⟨j, hj, hc, hsv⟩ := enrich_issue_mem _ _ _ _ i hi'
    simp [parseFallback] at hj
    subst hj
    exact ⟨hc, hsv⟩
  · have hl : ((enrich codec snap.pageData (jsStrTruthy snap.screenshot).isSome
        parseFallback).1.recommendations.getD []).length = 1 := by
      rw [enrich_recs_length]
      rfl
    exact hl
  · intro r hr
    have hr' : r ∈ (enrich codec snap.pageData (jsStrTruthy snap.screenshot).isSome
        parseFallback).1.recommendations.getD [] := hr
    obtain ⟨j, hj, hpr, hef⟩ := enrich_rec_mem _ _ _ _ r hr'
    simp [parseFallback] at hj
    subst hj
    exact ⟨hpr, hef⟩

/-- Witness for the amended C1 at a concrete unparsable-span response. -/
theorem analyze_parse_failure_fallback70_witness :
    (performUXAnalysisM (Except.ok snap0) (fun _ => Except.ok "{a} x")
      (fun _ => none) (fun _ => none)).score = 70 :=
  (analyze_parse_failure_fallback70 snap0 "{a} x" "{a}" (fun _ => none) (fun _ => none)
    (by decide) (by decide) rfl).1

/-- Claim C10 (confirmed): the final field defaulting fires on any falsy
value, not only on absent fields, and independently per field: whenever
the parsed score is 0 (or null) the returned score is 70, whatever the
summary holds, and whenever the parsed summary is the empty string (or
null) the returned summary is the fixed fallback sentence, whatever the
score holds. -/
theorem falsy_field_defaults (snap : PageSnapshot) (content sp : String)
    (parse : String → Option RawAnalysis) (codec : CropRect → Option String)
    (raw : RawAnalysis)
    (hne : content ≠ "") (hsp : extractSpan content = some sp) (hp : parse sp = some raw) :
    ((raw.score = some 0 ∨ raw.score = none) →
      (performUXAnalysisM (.ok snap) (fun _ => .ok content) parse codec).score = 70) ∧
    ((raw.summary = some "" ∨ raw.summary = none) →
      (performUXAnalysisM (.ok snap) (fun _ => .ok content) parse codec).summary
        = fallbackSummary) := by
  have hbody := analysisBody_ok snap content sp parse codec hne hsp
  rw [hp] at hbody
  dsimp only at hbody
  have hres : performUXAnalysisM (.ok snap) (fun _ => .ok content) parse codec =
      finalize (enrich codec snap.pageData (jsStrTruthy snap.screenshot).isSome raw).1 := by
    unfold performUXAnalysisM
    rw [hbody]
  rw [hres]
  constructor
  · intro hscore
    have hs := enrich_score codec snap.pageData (jsStrTruthy snap.screenshot).isSome raw
    rcases hscore with h | h <;> simp [finalize, hs, h]
  · intro hsum
    have hm := enrich_summary codec snap.pageData (jsStrTruthy snap.screenshot).isSome raw
    rcases hsum with h | h <;> simp [finalize, hm, h]

/-- Witness for C10: the score defaulting at a parsed object whose score
is 0 but whose summary is non-empty, and the summary defaulting at a
parsed object with an empty summary. -/
theorem falsy_field_defaults_witness :
    (performUXAnalysisM (Except.ok snap0) (fun _ => Except.ok "{a}")
      (fun _ => some rawZeroScoreOnly) (fun _ => none)).score = 70 ∧
    (performUXAnalysisM (Except.ok snap0) (fun _ => Except.ok "{a}")
      (fun _ => some rawZeroScore) (fun _ => none)).summary = fallbackSummary :=
  ⟨(falsy_field_defaults snap0 "{a}" "{a}" (fun _ => some rawZeroScoreOnly) (fun _ => none)
      rawZeroScoreOnly (by decide) (by decide) rfl).1 (Or.inl rfl),
    (falsy_field_defaults snap0 "{a}" "{a}" (fun _ => some rawZeroScore) (fun _ => none)
      rawZeroScore (by decide) (by decide) rfl).2 (Or.inl rfl)⟩

/-- Claim C4 (confirmed): every invocation that passes input validation
first inserts a Scan in status pending; on analyze success the Scan is
updated to completed with score, issue count, recommendation count and
summary set; on analyze failure it is updated to failed with no score and
no finding rows are written; the status traces are exactly pending then
completed, or pending then failed. -/
theorem scan_lifecycle_transitions (url userId uid : String)
    (step : Except String UXAnalysisResult)
    (hurl : url ≠ "") (huser : userId ≠ "") (hauth : uid = userId) :
    ∃ ws, postScan url userId (some uid) step = .ok ws ∧
      ws.head? = some (DbWrite.insertScan pendingInsert) ∧
      ((∃ r, step = .ok r ∧
          statusesOf ws = [ScanStatus.pending, ScanStatus.completed] ∧
          (∃ rest, ws = DbWrite.insertScan pendingInsert ::
            DbWrite.updateScan ⟨.completed, some r.score, some r.issues.length,
              some r.recommendations.length, some r.summary⟩ :: rest)) ∨
        (∃ e, step = .error e ∧
          statusesOf ws = [ScanStatus.pending, ScanStatus.failed] ∧
          ws = [DbWrite.insertScan pendingInsert,
            DbWrite.updateScan ⟨.failed, none, none, none, none⟩] ∧
          ws.all (fun w => !isFindingWrite w))) := by
  refine ⟨orchestrate step, ?_, ?_, ?_⟩
  · unfold postScan
    rw [if_neg (by simp [hurl, huser])]
    dsimp only
    rw [if_neg (by simp [hauth])]
  · cases step <;> rfl
  · cases step with
    | ok r =>
      left
      exact ⟨r, rfl, statusesOf_orchestrate_ok r, _, rfl⟩
    | error e =>
      right
      exact ⟨e, rfl, rfl, rfl, rfl⟩

/-- Witness for C4 at a concrete failing analyze step. -/
theorem scan_lifecycle_transitions_witness :
    postScan "https" "user1" (some "user1") (Except.error "boom") =
      .ok [DbWrite.insertScan pendingInsert,
        DbWrite.updateScan ⟨.failed, none, none, none, none⟩] := by
  obtain ⟨ws, hok, -, hcase⟩ :=
    scan_lifecycle_transitions "https" "user1" "user1" (Except.error "boom")
      (by decide) (by decide) rfl
  rcases hcase with ⟨r, hr, -, -⟩ | ⟨e, -, -, hws, -⟩
  · exact absurd hr (by simp)
  · rw [hws] at hok
    exact hok

/-- Claim C9 counterexample: with a full-page image present, an empty
issues list and one croppable recommendation (button keyword, positive
call-to-action rectangle, succeeding codec), the enrichment stage
iterates over nothing at all: the recommendation loop is nested inside
the non-empty-issues branch, so the first recommendation is never
considered and stays unchanged. -/
theorem crop_skips_recs_when_no_issues :
    (enrich (fun _ => some "IMG") pdCta true rawOnlyRec).2 = [] ∧
    (enrich (fun _ => some "IMG") pdCta true rawOnlyRec).1 = rawOnlyRec ∧
    rawOnlyRec.recommendations = some [recButtonFix] ∧
    recBounds pdCta recButtonFix.title = some ctaBox ∧
    ctaBox.width > 0 ∧ ctaBox.height > 0 := by
  refine ⟨by decide, by decide, by decide, by decide, by decide, by decide⟩

/-- Claim C9 as amended: when the full-page image is present and the
issues list is non-empty, the cropping stage iterates over every issue
and over exactly the first min(length, 3) recommendations, regardless of
the length of the recommendation list; recommendations beyond index 2 are
never considered.  (When the issues list is empty nothing is cropped, not
even recommendations — see the counterexample.) -/
theorem crop_considers_issues_and_first3_recs
    (codec : CropRect → Option String) (pd : PageData) (raw : RawAnalysis)
    (hIss : raw.issues.getD [] ≠ []) :
    (∀ k, k < (raw.issues.getD []).length →
      FindingRef.issueIdx k ∈ (enrich codec pd true raw).2) ∧
    (∀ k, k < (raw.recommendations.getD []).length → k < 3 →
      FindingRef.recIdx k ∈ (enrich codec pd true raw).2) ∧
    (∀ k, 3 ≤ k → FindingRef.recIdx k ∉ (enrich codec pd true raw).2) ∧
    (∀ k, (raw.issues.getD []).length ≤ k →
      FindingRef.issueIdx k ∉ (enrich codec pd true raw).2) := by
  have htrail : (enrich codec pd true raw).2 =
      loopRefs (raw.issues.getD []).length FindingRef.issueIdx
        ++ enrichRecTrail raw.recommendations := by
    unfold enrich
    rw [if_pos ⟨rfl, hIss⟩]
  have hrt : enrichRecTrail raw.recommendations =
      (List.range (min (raw.recommendations.getD []).length 3)).map FindingRef.recIdx := by
    cases hr : raw.recommendations with
    | none => simp [enrichRecTrail]
    | some recs =>
      by_cases h : recs = []
      · simp [enrichRecTrail, h]
      · simp [enrichRecTrail, h, loopRefs_eq_range]
  rw [loopRefs_eq_range] at htrail
  rw [htrail, hrt]
  refine ⟨?_, ?_, ?_, ?_⟩
  · intro k hk
    exact List.mem_append_left _ (List.mem_map_of_mem _ (List.mem_range.mpr hk))
  · intro k hk h3
    exact List.mem_append_right _ (List.mem_map_of_mem _ (List.mem_range.mpr (by omega)))
  · intro k h3 hmem
    rcases List.mem_append.mp hmem with h | h
    · obtain ⟨j, -, hj⟩ := List.mem_map.mp h
      exact FindingRef.noConfusion hj
    · obtain ⟨j, hjr, hj⟩ := List.mem_map.mp h
      rw [List.mem_range] at hjr
      have hjk : j = k := by injection hj
      omega
  · intro k hk hmem
    rcases List.mem_append.mp hmem with h | h
    · obtain ⟨j, hjr, hj⟩ := List.mem_map.mp h
      rw [List.mem_range] at hjr
      have hjk : j = k := by injection hj
      omega
    · obtain ⟨j, -, hj⟩ := List.mem_map.mp h
      exact FindingRef.noConfusion hj

/-- Witness for the amended C9 on two issues and four recommendations. -/
theorem crop_considers_issues_and_first3_recs_witness :
    FindingRef.issueIdx 1 ∈ (enrich (fun _ => none) pd0 true rawMulti).2 ∧
    FindingRef.recIdx 2 ∈ (enrich (fun _ => none) pd0 true rawMulti).2 ∧
    FindingRef.recIdx 3 ∉ (enrich (fun _ => none) pd0 true rawMulti).2 := by
  have h := crop_considers_issues_and_first3_recs (fun _ => none) pd0 rawMulti (by decide)
  exact ⟨h.1 1 (by decide), h.2.1 2 (by decide) (by decide), h.2.2.1 3 (by decide)⟩

/-! ## Validator lemmas -/

theorem normEnum_mem (valid : List String) (d : String) (hd : d ∈ valid) (v : String) :
    normEnum valid d v ∈ valid := by
  unfold normEnum
  by_cases h : lowerTrim v ∈ valid
  · rw [if_pos h]; exact h
  · rw [if_neg h]; exact hd

theorem normEnum_idem (valid : List String) (d : String)
    (hfix : ∀ w ∈ valid, lowerTrim w = w) (hd : d ∈ valid) (v : String) :
    normEnum valid d (normEnum valid d v) = normEnum valid d v := by
  unfold normEnum
  by_cases h : lowerTrim v ∈ valid
  · rw [if_pos h, hfix _ h, if_pos h]
  · rw [if_neg h, hfix _ hd, if_pos hd]

theorem jsStrTruthy_idem (o : Option String) : jsStrTruthy (jsStrTruthy o) = jsStrTruthy o := by
  cases o with
  | none => rfl
  | some s =>
    by_cases h : s = "" <;> simp [jsStrTruthy, h]

theorem strDefault_idem (d s : String) (hd : d ≠ "") :
    (if (if s = "" then d else s) = "" then d else (if s = "" then d else s)) =
      (if s = "" then d else s) := by
  by_cases h : s = ""
  · simp [h, hd]
  · simp [h]

theorem jsNum_getD (n : Int) : (jsNumOrNull (some n)).getD 0 = n := by
  by_cases h : n = 0 <;> simp [jsNumOrNull, h]

theorem jsNum_none_iff (n : Int) : jsNumOrNull (some n) = none ↔ n = 0 := by
  by_cases h : n = 0 <;> simp [jsNumOrNull, h]

theorem toUX_bounds_of_none (i : UXIssue) (hb : i.bounds = none) :
    (ValidatedIssue.toUX (validateIssue i)).bounds = none := by
  unfold ValidatedIssue.toUX
  rw [if_pos (by simp [validateIssue, hb, jsNumOrNull])]

theorem toUX_bounds_of_some (i : UXIssue) (b : Bounds) (hb : i.bounds = some b) :
    (ValidatedIssue.toUX (validateIssue i)).bounds =
      (if b.x = 0 ∧ b.y = 0 ∧ b.width = 0 ∧ b.height = 0 then none else some b) := by
  have hx : (validateIssue i).bounds_x = jsNumOrNull (some b.x) := by
    simp [validateIssue, hb]
  have hy : (validateIssue i).bounds_y = jsNumOrNull (some b.y) := by
    simp [validateIssue, hb]
  have hw : (validateIssue i).bounds_width = jsNumOrNull (some b.width) := by
    simp [validateIssue, hb]
  have hh : (validateIssue i).bounds_height = jsNumOrNull (some b.height) := by
    simp [validateIssue, hb]
  unfold ValidatedIssue.toUX
  rw [hx, hy, hw, hh]
  by_cases hz : b.x = 0 ∧ b.y = 0 ∧ b.width = 0 ∧ b.height = 0
  · rw [if_pos (by simp [jsNum_none_iff, hz.1, hz.2.1, hz.2.2.1, hz.2.2.2]), if_pos hz]
  · rw [if_neg (by simp only [jsNum_none_iff]; exact hz), if_neg hz,
      jsNum_getD, jsNum_getD, jsNum_getD, jsNum_getD]

theorem validate_toUX_bounds_x (i : UXIssue) :
    jsNumOrNull ((ValidatedIssue.toUX (validateIssue i)).bounds.map (fun b => b.x)) =
      (validateIssue i).bounds_x := by
  cases hb : i.bounds with
  | none =>
    rw [toUX_bounds_of_none i hb]
    simp [validateIssue, hb, jsNumOrNull]
  | some b =>
    rw [toUX_bounds_of_some i b hb]
    by_cases hz : b.x = 0 ∧ b.y = 0 ∧ b.width = 0 ∧ b.height = 0
    · rw [if_pos hz]
      simp [validateIssue, hb, jsNumOrNull, hz.1]
    · rw [if_neg hz]
      simp [validateIssue, hb]

theorem validate_toUX_bounds_y (i : UXIssue) :
    jsNumOrNull ((ValidatedIssue.toUX (validateIssue i)).bounds.map (fun b => b.y)) =
      (validateIssue i).bounds_y := by
  cases hb : i.bounds with
  | none =>
    rw [toUX_bounds_of_none i hb]
    simp [validateIssue, hb, jsNumOrNull]
  | some b =>
    rw [toUX_bounds_of_some i b hb]
    by_cases hz : b.x = 0 ∧ b.y = 0 ∧ b.width = 0 ∧ b.height = 0
    · rw [if_pos hz]
      simp [validateIssue, hb, jsNumOrNull, hz.2.1]
    · rw [if_neg hz]
      simp [validateIssue, hb]

theorem validate_toUX_bounds_w (i : UXIssue) :
    jsNumOrNull ((ValidatedIssue.toUX (validateIssue i)).bounds.map (fun b => b.width)) =
      (validateIssue i).bounds_width := by
  cases hb : i.bounds with
  | none =>
    rw [toUX_bounds_of_none i hb]
    simp [validateIssue, hb, jsNumOrNull]
  | some b =>
    rw [toUX_bounds_of_some i b hb]
    by_cases hz : b.x = 0 ∧ b.y = 0 ∧ b.width = 0 ∧ b.height = 0
    · rw [if_pos hz]
      simp [validateIssue, hb, jsNumOrNull, hz.2.2.1]
    · rw [if_neg hz]
      simp [validateIssue, hb]

theorem validate_toUX_bounds_h (i : UXIssue) :
    jsNumOrNull ((ValidatedIssue.toUX (validateIssue i)).bounds.map (fun b => b.height)) =
      (validateIssue i).bounds_height := by
  cases hb : i.bounds with
  | none =>
    rw [toUX_bounds_of_none i hb]
    simp [validateIssue, hb, jsNumOrNull]
  | some b =>
    rw [toUX_bounds_of_some i b hb]
    by_cases hz : b.x = 0 ∧ b.y = 0 ∧ b.width = 0 ∧ b.height = 0
    · rw [if_pos hz]
      simp [validateIssue, hb, jsNumOrNull, hz.2.2.2]
    · rw [if_neg hz]
      simp [validateIssue, hb]

set_option maxHeartbeats 1000000 in
theorem lowerTrim_fix_categories : ∀ w ∈ validCategories, lowerTrim w = w := by decide

set_option maxHeartbeats 1000000 in
theorem lowerTrim_fix_severities : ∀ w ∈ validSeverities, lowerTrim w = w := by decide

set_option maxHeartbeats 1000000 in
theorem lowerTrim_fix_priorities : ∀ w ∈ validPriorities, lowerTrim w = w := by decide

set_option maxHeartbeats 1000000 in
theorem lowerTrim_fix_efforts : ∀ w ∈ validEfforts, lowerTrim w = w := by decide

set_option maxHeartbeats 4000000 in
theorem validateIssue_idem (i : UXIssue) :
    validateIssue (ValidatedIssue.toUX (validateIssue i)) = validateIssue i := by
  apply ValidatedIssue.ext
  · exact normEnum_idem validCategories "layout" lowerTrim_fix_categories (by decide) i.category
  · exact normEnum_idem validSeverities "medium" lowerTrim_fix_severities (by decide) i.severity
  · exact strDefault_idem "UX Issue" i.title (by decide)
  · exact strDefault_idem "No description provided" i.description (by decide)
  · exact jsStrTruthy_idem i.element
  · exact strDefault_idem "Impact on user experience" i.impact (by decide)
  · exact jsStrTruthy_idem i.screenshot
  · exact validate_toUX_bounds_x i
  · exact validate_toUX_bounds_y i
  · exact validate_toUX_bounds_w i
  · exact validate_toUX_bounds_h i

set_option maxHeartbeats 4000000 in
theorem validateRec_idem (r : UXRecommendation) :
    validateRec (ValidatedRec.toUX (validateRec r)) = validateRec r := by
  apply ValidatedRec.ext
  · exact normEnum_idem validPriorities "medium" lowerTrim_fix_priorities (by decide) r.priority
  · exact strDefault_idem "UX Recommendation" r.title (by decide)
  · exact strDefault_idem "No description provided" r.description (by decide)
  · exact strDefault_idem "Implementation details not provided" r.implementation (by decide)
  · exact strDefault_idem "Expected improvement in user experience" r.expectedImpact (by decide)
  · exact normEnum_idem validEfforts "medium" lowerTrim_fix_efforts (by decide) r.effort
  · exact jsStrTruthy_idem r.screenshot

theorem validateIssue_title_ne (i : UXIssue) : (validateIssue i).title ≠ "" := by
  show (if i.title = "" then "UX Issue" else i.title) ≠ ""
  by_cases h : i.title = ""
  · rw [if_pos h]; decide
  · rw [if_neg h]; exact h

theorem validateIssue_description_ne (i : UXIssue) : (validateIssue i).description ≠ "" := by
  show (if i.description = "" then "No description provided" else i.description) ≠ ""
  by_cases h : i.description = ""
  · rw [if_pos h]; decide
  · rw [if_neg h]; exact h

theorem validateRec_title_ne (r : UXRecommendation) : (validateRec r).title ≠ "" := by
  show (if r.title = "" then "UX Recommendation" else r.title) ≠ ""
  by_cases h : r.title = ""
  · rw [if_pos h]; decide
  · rw [if_neg h]; exact h

theorem validateRec_description_ne (r : UXRecommendation) :
    (validateRec r).description ≠ "" := by
  show (if r.description = "" then "No description provided" else r.description) ≠ ""
  by_cases h : r.description = ""
  · rw [if_pos h]; decide
  · rw [if_neg h]; exact h

theorem validateRec_implementation_ne (r : UXRecommendation) :
    (validateRec r).implementation ≠ "" := by
  show (if r.implementation = "" then "Implementation details not provided"
    else r.implementation) ≠ ""
  by_cases h : r.implementation = ""
  · rw [if_pos h]; decide
  · rw [if_neg h]; exact h

/-- After defaulting, the required-field filter keeps every issue. -/
theorem validateIssues_eq_map (l : List UXIssue) :
    validateIssues l = l.map validateIssue := by
  unfold validateIssues
  apply List.filter_eq_self.mpr
  intro v hv
  obtain ⟨j, -, rfl⟩ := List.mem_map.mp hv
  simp only [Bool.and_eq_true, bne_iff_ne]
  exact ⟨validateIssue_title_ne j, validateIssue_description_ne j⟩

/-- After defaulting, the required-field filter keeps every
recommendation. -/
theorem validateRecs_eq_map (l : List UXRecommendation) :
    validateRecs l = l.map validateRec := by
  unfold validateRecs
  apply List.filter_eq_self.mpr
  intro v hv
  obtain ⟨j, -, rfl⟩ := List.mem_map.mp hv
  simp only [Bool.and_eq_true, bne_iff_ne]
  exact ⟨⟨validateRec_title_ne j, validateRec_description_ne j⟩,
    validateRec_implementation_ne j⟩

/-- Claim C5 (confirmed): the validator lower-cases and trims every enum
field and replaces values outside the closed sets with the fixed defaults
(category layout, severity medium, priority medium, effort medium); no
issue or recommendation is ever dropped, so an enum value is never a
reason to reject a finding; the scenario category "Layout " with mixed
case and trailing space normalizes to layout. -/
theorem validator_enum_normalization :
    (∀ i : UXIssue, lowerTrim i.category ∈ validCategories →
      (validateIssue i).category = lowerTrim i.category) ∧
    (∀ i : UXIssue, lowerTrim i.category ∉ validCategories →
      (validateIssue i).category = "layout") ∧
    (∀ i : UXIssue, lowerTrim i.severity ∈ validSeverities →
      (validateIssue i).severity = lowerTrim i.severity) ∧
    (∀ i : UXIssue, lowerTrim i.severity ∉ validSeverities →
      (validateIssue i).severity = "medium") ∧
    (∀ r : UXRecommendation, lowerTrim r.priority ∈ validPriorities →
      (validateRec r).priority = lowerTrim r.priority) ∧
    (∀ r : UXRecommendation, lowerTrim r.priority ∉ validPriorities →
      (validateRec r).priority = "medium") ∧
    (∀ r : UXRecommendation, lowerTrim r.effort ∈ validEfforts →
      (validateRec r).effort = lowerTrim r.effort) ∧
    (∀ r : UXRecommendation, lowerTrim r.effort ∉ validEfforts →
      (validateRec r).effort = "medium") ∧
    (∀ l : List UXIssue, (validateIssues l).length = l.length) ∧
    (∀ l : List UXRecommendation, (validateRecs l).length = l.length) ∧
    (∀ i : UXIssue, i.category = "Layout " → (validateIssue i).category = "layout") := by
  refine ⟨?_, ?_, ?_, ?_, ?_, ?_, ?_, ?_, ?_, ?_, ?_⟩
  · intro i h
    show (if lowerTrim i.category ∈ validCategories then lowerTrim i.category
      else "layout") = lowerTrim i.category
    exact if_pos h
  · intro i h
    show (if lowerTrim i.category ∈ validCategories then lowerTrim i.category
      else "layout") = "layout"
    exact if_neg h
  · intro i h
    show (if lowerTrim i.severity ∈ validSeverities then lowerTrim i.severity
      else "medium") = lowerTrim i.severity
    exact if_pos h
  · intro i h
    show (if lowerTrim i.severity ∈ validSeverities then lowerTrim i.severity
      else "medium") = "medium"
    exact if_neg h
  · intro r h
    show (if lowerTrim r.priority ∈ validPriorities then lowerTrim r.priority
      else "medium") = lowerTrim r.priority
    exact if_pos h
  · intro r h
    show (if lowerTrim r.priority ∈ validPriorities then lowerTrim r.priority
      else "medium") = "medium"
    exact if_neg h
  · intro r h
    show (if lowerTrim r.effort ∈ validEfforts then lowerTrim r.effort
      else "medium") = lowerTrim r.effort
    exact if_pos h
  · intro r h
    show (if lowerTrim r.effort ∈ validEfforts then lowerTrim r.effort
      else "medium") = "medium"
    exact if_neg h
  · intro l
    rw [validateIssues_eq_map]
    exact List.length_map l validateIssue
  · intro l
    rw [validateRecs_eq_map]
    exact List.length_map l validateRec
  · intro i h
    show normEnum validCategories "layout" i.category = "layout"
    rw [h]
    decide

/-- Witness for C5 at concrete findings with out-of-set and mixed-case
enum values. -/
theorem validator_enum_normalization_witness :
    (validateIssue layoutSpacedIssue).category = "layout" ∧
    (validateIssue layoutSpacedIssue).severity = "medium" ∧
    (validateRec bogusRec).priority = "medium" ∧
    (validateRec bogusRec).effort = "medium" :=
  ⟨validator_enum_normalization.2.2.2.2.2.2.2.2.2.2 layoutSpacedIssue rfl,
    validator_enum_normalization.2.2.2.1 layoutSpacedIssue (by decide),
    validator_enum_normalization.2.2.2.2.2.1 bogusRec (by decide),
    validator_enum_normalization.2.2.2.2.2.2.2.1 bogusRec (by decide)⟩

/-- Claim C6 (confirmed): normalization is idempotent — re-validating a
validated finding (read back in the shape the validator consumes) changes
nothing, both per record and per list — and every post-validation
category, severity, priority and effort value belongs to its enumerated
set. -/
theorem validator_normalize_idempotent :
    (∀ i : UXIssue, validateIssue (ValidatedIssue.toUX (validateIssue i)) = validateIssue i) ∧
    (∀ r : UXRecommendation,
      validateRec (ValidatedRec.toUX (validateRec r)) = validateRec r) ∧
    (∀ l : List UXIssue,
      validateIssues ((validateIssues l).map ValidatedIssue.toUX) = validateIssues l) ∧
    (∀ l : List UXRecommendation,
      validateRecs ((validateRecs l).map ValidatedRec.toUX) = validateRecs l) ∧
    (∀ i : UXIssue, (validateIssue i).category ∈ validCategories ∧
      (validateIssue i).severity ∈ validSeverities) ∧
    (∀ r : UXRecommendation, (validateRec r).priority ∈ validPriorities ∧
      (validateRec r).effort ∈ validEfforts) := by
  refine ⟨validateIssue_idem, validateRec_idem, ?_, ?_, ?_, ?_⟩
  · intro l
    rw [validateIssues_eq_map, validateIssues_eq_map, List.map_map, List.map_map]
    apply List.map_congr_left
    intro a _
    exact validateIssue_idem a
  · intro l
    rw [validateRecs_eq_map, validateRecs_eq_map, List.map_map, List.map_map]
    apply List.map_congr_left
    intro a _
    exact validateRec_idem a
  · intro i
    exact ⟨normEnum_mem validCategories "layout" (by decide) i.category,
      normEnum_mem validSeverities "medium" (by decide) i.severity⟩
  · intro r
    exact ⟨normEnum_mem validPriorities "medium" (by decide) r.priority,
      normEnum_mem validEfforts "medium" (by decide) r.effort⟩

/-! ## Span-extraction lemmas -/

theorem dropUntil_split (t : Char) (xs : List Char) :
    ∃ pre, xs = pre ++ dropUntilChar t xs ∧ t ∉ pre := by
  induction xs with
  | nil => exact ⟨[], rfl, by simp⟩
  | cons c cs ih =>
    by_cases h : c = t
    · refine ⟨[], ?_, by simp⟩
      simp [dropUntilChar, h]
    · obtain ⟨pre, hpre, hmem⟩ := ih
      refine ⟨c :: pre, ?_, ?_⟩
      · simp only [dropUntilChar, if_neg h, List.cons_append]
        rw [← hpre]
      · intro hc
        rcases List.mem_cons.mp hc with h' | h'
        · exact h h'.symm
        · exact hmem h'

theorem dropUntil_head (t : Char) (xs : List Char) (h : dropUntilChar t xs ≠ []) :
    ∃ rest, dropUntilChar t xs = t :: rest := by
  induction xs with
  | nil => simp [dropUntilChar] at h
  | cons c cs ih =>
    by_cases hc : c = t
    · refine ⟨cs, ?_⟩
      simp only [dropUntilChar, if_pos hc]
      rw [hc]
    · have h' : dropUntilChar t cs ≠ [] := by
        simpa [dropUntilChar, hc] using h
      obtain ⟨rest, hr⟩ := ih h'
      refine ⟨rest, ?_⟩
      simp only [dropUntilChar, if_neg hc]
      exact hr

theorem dropUntil_ne_nil_of_mem (t : Char) (xs : List Char) (h : t ∈ xs) :
    dropUntilChar t xs ≠ [] := by
  induction xs with
  | nil => simp at h
  | cons c cs ih =>
    by_cases hc : c = t
    · simp [dropUntilChar, hc]
    · have h' : t ∈ cs := by
        rcases List.mem_cons.mp h with h' | h'
        · exact absurd h'.symm hc
        · exact h'
      simp only [dropUntilChar, if_neg hc]
      exact ih h'

theorem mem_dropUntil (t : Char) (l rest : List Char) (x : Char) (hx : x ∈ t :: rest) :
    x ∈ dropUntilChar t (l ++ t :: rest) := by
  induction l with
  | nil =>
    simpa [dropUntilChar] using hx
  | cons c cs ih =>
    by_cases hc : c = t
    · have heq : dropUntilChar t ((c :: cs) ++ t :: rest) = c :: (cs ++ t :: rest) := by
        simp only [List.cons_append, dropUntilChar, if_pos hc]
        rfl
      rw [heq]
      exact List.mem_cons_of_mem c (List.mem_append_right cs hx)
    · have heq : dropUntilChar t ((c :: cs) ++ t :: rest) = dropUntilChar t (cs ++ t :: rest) := by
        simp only [List.cons_append, dropUntilChar, if_neg hc]
        rfl
      rw [heq]
      exact ih

/-- Claim C2 counterexample: on a response with two top-level objects the
code-side extraction (greedy regex, first opening brace through the last
closing brace) returns the whole span, while the first balanced brace
span is only the first object, so the Finding Synthesizer does not
extract the first balanced span. -/
theorem extract_span_not_first_balanced :
    extractSpan "{a} x {b}" = some "{a} x {b}" ∧
    extractFirstBalanced "{a} x {b}" = some "{a}" ∧
    ("{a} x {b}" : String) ≠ "{a}" := by
  refine ⟨by decide, by decide, by decide⟩

/-- Claim C2 as amended: the extraction takes the span from the first
opening brace through the last closing brace of the response text (the
text before the span has no opening brace, the text after it no closing
brace), not the first balanced span; and for every non-empty response
with no such span the inner synthesis step fails with the no-JSON error
(which the outer handler of performUXAnalysis then converts to the
score-65 fallback). -/
theorem extract_span_first_to_last_brace :
    (∀ s sp, extractSpan s = some sp →
      ∃ pre post, s.data = pre ++ sp.data ++ post ∧ '{' ∉ pre ∧ '}' ∉ post ∧
        sp.data.head? = some '{' ∧ sp.data.getLast? = some '}') ∧
    (∀ s, extractSpan s = none → ∀ l m r, s.data ≠ l ++ '{' :: (m ++ '}' :: r)) ∧
    (∀ (snap : PageSnapshot) (content : String) (parse : String → Option RawAnalysis)
      (codec : CropRect → Option String), content ≠ "" → extractSpan content = none →
      analysisBody (.ok snap) (fun _ => .ok content) parse codec = .error noJsonMsg) := by
  refine ⟨?_, ?_, ?_⟩
  · intro s sp hsp
    unfold extractSpan at hsp
    dsimp only at hsp
    split at hsp
    · simp at hsp
    · rename_i hT
      split at hsp
      · simp at hsp
      · rename_i hB
        injection hsp with hsp
        have hdata : sp.data = (dropUntilChar '}' (dropUntilChar '{' s.data).reverse).reverse := by
          rw [← hsp]
        have hTne : dropUntilChar '{' s.data ≠ [] := by
          intro h
          exact hT (by simp [h])
        have hBrevne : dropUntilChar '}' (dropUntilChar '{' s.data).reverse ≠ [] := by
          intro h
          exact hB (by simp [h])
        have hBne : (dropUntilChar '}' (dropUntilChar '{' s.data).reverse).reverse ≠ [] := by
          intro h
          exact hBrevne (List.reverse_eq_nil_iff.mp h)
        obtain ⟨pre1, hpre1, hnpre1⟩ := dropUntil_split '{' s.data
        obtain ⟨pre2, hpre2, hnpre2⟩ := dropUntil_split '}' (dropUntilChar '{' s.data).reverse
        have htail : dropUntilChar '{' s.data =
            (dropUntilChar '}' (dropUntilChar '{' s.data).reverse).reverse ++ pre2.reverse := by
          have h := congrArg List.reverse hpre2
          simpa [List.reverse_append] using h
        refine ⟨pre1, pre2.reverse, ?_, hnpre1, ?_, ?_, ?_⟩
        · rw [hdata, List.append_assoc, ← htail]
          exact hpre1
        · intro h
          exact hnpre2 (List.mem_reverse.mp h)
        · obtain ⟨rest, hrest⟩ := dropUntil_head '{' s.data hTne
          have hBapp : (dropUntilChar '}' (dropUntilChar '{' s.data).reverse).reverse
              ++ pre2.reverse = '{' :: rest := by
            rw [← htail, hrest]
          rw [hdata]
          cases hBcases : (dropUntilChar '}' (dropUntilChar '{' s.data).reverse).reverse with
          | nil => exact absurd hBcases hBne
          | cons b0 bs =>
            rw [hBcases, List.cons_append] at hBapp
            have hb0 : b0 = '{' := by
              injection hBapp
            rw [hb0]
            rfl
        · obtain ⟨rest2, hrest2⟩ := dropUntil_head '}' (dropUntilChar '{' s.data).reverse hBrevne
          rw [hdata, hrest2, List.reverse_cons, List.getLast?_concat]
  · intro s hnone l m r heq
    have h1 : '}' ∈ dropUntilChar '{' s.data := by
      rw [heq]
      exact mem_dropUntil '{' l (m ++ '}' :: r) '}' (by simp)
    have h2 : dropUntilChar '{' s.data ≠ [] := List.ne_nil_of_mem h1
    have h3 : '}' ∈ (dropUntilChar '{' s.data).reverse := List.mem_reverse.mpr h1
    have h4 : dropUntilChar '}' (dropUntilChar '{' s.data).reverse ≠ [] :=
      dropUntil_ne_nil_of_mem '}' _ h3
    unfold extractSpan at hnone
    dsimp only at hnone
    rw [if_neg (by simp [h2]), if_neg (by simp [h4])] at hnone
    simp at hnone
  · intro snap content parse codec hne hnone
    unfold analysisBody
    dsimp only
    rw [if_neg hne, hnone]

/-- Witness for the amended C2 at concrete responses with and without a
brace span. -/
theorem extract_span_first_to_last_brace_witness :
    (∃ pre post, ("x{a}y" : String).data = pre ++ ("{a}" : String).data ++ post ∧
      '{' ∉ pre ∧ '}' ∉ post ∧ ("{a}" : String).data.head? = some '{' ∧
      ("{a}" : String).data.getLast? = some '}') ∧
    analysisBody (Except.ok snap0) (fun _ => Except.ok "no braces here")
      (fun _ => none) (fun _ => none) = Except.error noJsonMsg :=
  ⟨extract_span_first_to_last_brace.1 "x{a}y" "{a}" (by decide),
    extract_span_first_to_last_brace.2.2 snap0 "no braces here" (fun _ => none)
      (fun _ => none) (by decide) (by decide)⟩
